import Mathlib

/-!
Verification of the workflow-orchestration engine of the agentic underwriting
repository.  The per-field state-merge semantics, the routing predicates and
the node bodies are translated from `src/graph_pipeline/state.py`,
`src/graph_pipeline/graph.py` and `src/graph_pipeline/nodes.py`.  The graph
scheduler, the compile-time validation and the checkpoint/resume protocol are
provided by the hosted framework (not part of the repository sources) and are
modelled from the specification (sections 4.1 to 4.4).

Python floats are modelled as rationals (`ℚ`), Python dicts as association
lists without duplicate keys, and a node body that raises is modelled as a
step function returning `Except`.
-/

namespace Underwriting

/-- Python substring test `needle in hay`, on character lists. -/
def listPre : List Char → List Char → Bool
  | [], _ => true
  | _ :: _, [] => false
  | a :: as, b :: bs => a == b && listPre as bs

/-- Helper for `strContains`: does `needle` occur in some suffix of `hay`? -/
def listSub (needle : List Char) : List Char → Bool
  | [] => needle.isEmpty
  | c :: rest => listPre needle (c :: rest) || listSub needle rest

/-- Python's `needle in hay` for strings. -/
def strContains (hay needle : String) : Bool :=
  listSub needle.data hay.data

/-- Python's `str.lower()`, on the character list. -/
def strLower (s : String) : String := ⟨s.data.map Char.toLower⟩

/-- Python's `str.upper()`, on the character list. -/
def strUpper (s : String) : String := ⟨s.data.map Char.toUpper⟩

/-- Python's slice `s[:n]`, on the character list. -/
def strTake (s : String) (n : Nat) : String := ⟨s.data.take n⟩

/-- A Python dict with `String` keys, modelled as an association list
(first entry for a key wins on lookup, as dict keys are unique). -/
abbrev PyDict (V : Type) := List (String × V)

/-- `state.py` `merge_dicts(a, b) = {**a, **b}`: the reducer used for the
`cost_tracking` and `execution_time` channels.  Keys of `a` keep their
position with values overridden by `b`; keys only in `b` are appended. -/
def merge_dicts {V : Type} (a b : PyDict V) : PyDict V :=
  (a.map (fun p => match List.lookup p.1 b with
                   | some v => (p.1, v)
                   | none => p))
  ++ b.filter (fun p => (List.lookup p.1 a).isNone)

/-- `operator.add` on lists: the reducer of the `security_flags` channel. -/
def list_add {V : Type} (a b : List V) : List V := a ++ b

/-- `state.py` pydantic model `ExtractedData`. -/
structure ExtractedData where
  client_name : String
  industry : String
  revenue : ℚ
  employees : Int
  address : Option String
  coverage_needs : List String
deriving Repr, DecidableEq

/-- `state.py` pydantic model `CalculationResult`. -/
structure CalculationResult where
  gl_base : ℚ
  gl_formula : String
  loss_modifier : ℚ
  loss_percent : String
  loss_formula : String
  auto_premium : ℚ
  auto_formula : String
  auto_formula_desc : String
  final_premium : ℚ
  authority : String
  coverage_analysis : String
deriving Repr, DecidableEq

/-- The dict written by `node_industry` into `industry_classification`. -/
structure IndustryClassification where
  name : String
  code : String
deriving Repr, DecidableEq

/-- The dict written by `node_risk` into `risk_assessment`. -/
structure RiskAssessment where
  level : String
  score : Nat
  revenue_factor : ℚ
deriving Repr, DecidableEq

/-- One entry of the `rates` list written by `node_rates`
(`{"type": ..., "rate": ...}`). -/
structure RateEntry where
  type : String
  rate : ℚ
deriving Repr, DecidableEq

/-- `state.py` `AgentState`: the typed channels of the graph.  Channels a run
may not have written yet are `Option`-valued (`none` = never written); the
three `Annotated` reducer channels start from their identity element. -/
structure AgentState where
  input_email : String
  quote_id : String
  extracted_data : Option ExtractedData
  industry_classification : Option IndustryClassification
  rates : Option (List RateEntry)
  risk_assessment : Option RiskAssessment
  calculation : Option CalculationResult
  quote_letter : Option String
  error : Option String
  is_referral : Bool
  is_approved : Option Bool
  pillars : Option (PyDict String)
  cost_tracking : PyDict ℚ
  execution_time : PyDict ℚ
  security_flags : List String
deriving Repr, DecidableEq

/-- A partial-state patch returned by a node (or passed to `update_state`):
each field is `some v` when the node's returned dict has that key. -/
structure StatePatch where
  input_email : Option String := none
  quote_id : Option String := none
  extracted_data : Option ExtractedData := none
  industry_classification : Option IndustryClassification := none
  rates : Option (List RateEntry) := none
  risk_assessment : Option RiskAssessment := none
  calculation : Option CalculationResult := none
  quote_letter : Option String := none
  error : Option String := none
  is_referral : Option Bool := none
  is_approved : Option Bool := none
  pillars : Option (PyDict String) := none
  cost_tracking : Option (PyDict ℚ) := none
  execution_time : Option (PyDict ℚ) := none
  security_flags : Option (List String) := none
deriving Repr, DecidableEq

/-- The field names of `AgentState`. -/
inductive Field where
  | input_email | quote_id | extracted_data | industry_classification
  | rates | risk_assessment | calculation | quote_letter | error
  | is_referral | is_approved | pillars
  | cost_tracking | execution_time | security_flags
deriving Repr, DecidableEq, Fintype

/-- All fields, in declaration order. -/
def fieldList : List Field :=
  [.input_email, .quote_id, .extracted_data, .industry_classification,
   .rates, .risk_assessment, .calculation, .quote_letter, .error,
   .is_referral, .is_approved, .pillars,
   .cost_tracking, .execution_time, .security_flags]

/-- The fields declared without an `Annotated` reducer in `AgentState`
(merge policy Overwrite / last value). -/
def overwriteFields : List Field :=
  [.input_email, .quote_id, .extracted_data, .industry_classification,
   .rates, .risk_assessment, .calculation, .quote_letter, .error,
   .is_referral, .is_approved, .pillars]

/-- Does a patch write a given field? -/
def writes (p : StatePatch) : Field → Bool
  | .input_email => p.input_email.isSome
  | .quote_id => p.quote_id.isSome
  | .extracted_data => p.extracted_data.isSome
  | .industry_classification => p.industry_classification.isSome
  | .rates => p.rates.isSome
  | .risk_assessment => p.risk_assessment.isSome
  | .calculation => p.calculation.isSome
  | .quote_letter => p.quote_letter.isSome
  | .error => p.error.isSome
  | .is_referral => p.is_referral.isSome
  | .is_approved => p.is_approved.isSome
  | .pillars => p.pillars.isSome
  | .cost_tracking => p.cost_tracking.isSome
  | .execution_time => p.execution_time.isSome
  | .security_flags => p.security_flags.isSome

/-- Apply a reducer to the current value and an optional patched value
(`none` = the patch does not carry the key, the current value stays). -/
def applyRed {α β : Type} (red : α → β → α) (c : α) : Option β → α
  | some d => red c d
  | none => c

/-- Apply one patch to the state with each field's declared merge policy:
plain fields are overwritten when the patch carries them (`Option.or` /
`Option.getD`), `cost_tracking` and `execution_time` are merged with
`merge_dicts`, and `security_flags` is extended with `operator.add`. -/
def applyPatch (s : AgentState) (p : StatePatch) : AgentState where
  input_email := p.input_email.getD s.input_email
  quote_id := p.quote_id.getD s.quote_id
  extracted_data := p.extracted_data.or s.extracted_data
  industry_classification :=
    p.industry_classification.or s.industry_classification
  rates := p.rates.or s.rates
  risk_assessment := p.risk_assessment.or s.risk_assessment
  calculation := p.calculation.or s.calculation
  quote_letter := p.quote_letter.or s.quote_letter
  error := p.error.or s.error
  is_referral := p.is_referral.getD s.is_referral
  is_approved := p.is_approved.or s.is_approved
  pillars := p.pillars.or s.pillars
  cost_tracking := applyRed merge_dicts s.cost_tracking p.cost_tracking
  execution_time := applyRed merge_dicts s.execution_time p.execution_time
  security_flags := applyRed list_add s.security_flags p.security_flags

/-- Modelled from the spec: `MergeError` (section 4.3) — two patches of one
batch write the same Overwrite-policy field.  The merger itself is part of
the hosted framework, not of the repository sources. -/
inductive MergeError where
  | conflict (f : Field)
deriving Repr, DecidableEq

/-- Modelled from the spec: `merge(current, patches)` (section 4.3).  The
batch merge raises `MergeError` when two patches write the same
Overwrite-policy field, otherwise folds the patches with `applyPatch`. -/
def mergeBatch (s : AgentState) (ps : List StatePatch) :
    Except MergeError AgentState :=
  match overwriteFields.filter
      (fun f => 2 ≤ ps.countP (fun p => writes p f)) with
  | f :: _ => .error (.conflict f)
  | [] => .ok (ps.foldl applyPatch s)

/-! ## Node bodies (`nodes.py`) -/

/-- `nodes.py` `track_cost`: character-count based cost estimate
(`0.0001` dollars per 1k tokens, 4 characters per token). -/
def track_cost (text : String) : ℚ :=
  let char_count : ℚ := text.length
  let tokens := char_count / 4
  (tokens / 1000) * (1 / 10000)

/-- Group a reversed digit list into blocks of three with commas. -/
def groupRev : List Char → List Char
  | a :: b :: c :: d :: rest => a :: b :: c :: ',' :: groupRev (d :: rest)
  | l => l

/-- Render a natural number with comma thousands separators. -/
def fmtNat (n : Nat) : String := ⟨(groupRev (toString n).data.reverse).reverse⟩

/-- Python `f"{q:,.0f}"` on the nonnegative amounts the nodes format
(display-only text; rounds half-up where Python rounds half-even). -/
def fmt0 (q : ℚ) : String := fmtNat (round q).natAbs

/-- Two-digit zero padding for cents. -/
def pad2 (n : Nat) : String := if n < 10 then "0" ++ toString n else toString n

/-- Python `f"{q:,.2f}"` on the nonnegative amounts the nodes format
(display-only text; rounds half-up where Python rounds half-even). -/
def fmt2 (q : ℚ) : String :=
  let c := (round (q * 100)).natAbs
  fmtNat (c / 100) ++ "." ++ pad2 (c % 100)

/-- Outcomes of the effectful parts of the node bodies, which the engine
invokes as opaque external collaborators: the result of the LLM extraction
chain, the wall-clock duration measured by each node, and the start
timestamp `node_quote` folds into the reference id. -/
structure ExternalInputs where
  extractResult : Except String ExtractedData
  tSecurity : ℚ
  tExtract : ℚ
  tIndustry : ℚ
  tRates : ℚ
  tRisk : ℚ
  tCalculate : ℚ
  tQuote : ℚ
  quoteStartTime : Nat

/-- The regex PII scan of `node_security_scan`: both checks append their
flag independently. -/
def securityFlagsOf (email : String) : List String :=
  (if strContains email "SSN" || strContains email "Social Security"
   then ["POTENTIAL_PII_SSN"] else [])
  ++ (if strContains email "Credit Card" then ["POTENTIAL_PII_CC"] else [])

/-- `nodes.py` `node_security_scan`. -/
def node_security_scan (ext : ExternalInputs) (s : AgentState) :
    Except String StatePatch :=
  let email_content := s.input_email
  .ok { security_flags := some (securityFlagsOf email_content),
        execution_time := some [("security", ext.tSecurity)],
        cost_tracking := some [("security", track_cost email_content)] }

/-- `nodes.py` `node_extract`: when the extraction chain raises, the
exception is caught and only `{"error": str(e)}` is returned (the node
itself does not fail); on success the serialized extraction is written
together with the telemetry entries. -/
def node_extract (ext : ExternalInputs) (s : AgentState) :
    Except String StatePatch :=
  match ext.extractResult with
  | .error e => .ok { error := some e }
  | .ok result =>
      let cost := track_cost s.input_email + track_cost (toString (repr result))
      .ok { extracted_data := some result,
            execution_time := some [("extraction", ext.tExtract)],
            cost_tracking := some [("extraction", cost)] }

/-- `nodes.py` `node_industry`: `state["extracted_data"]` raises when the
channel was never written. -/
def node_industry (ext : ExternalInputs) (s : AgentState) :
    Except String StatePatch :=
  match s.extracted_data with
  | none => .error "KeyError: extracted_data"
  | some data =>
      let industry := data.industry
      .ok { industry_classification :=
              some { name := industry, code := "NAICS-123" },
            execution_time := some [("industry", ext.tIndustry)],
            cost_tracking := some [("industry", 1 / 10000)] }

/-- `nodes.py` `node_rates`. -/
def node_rates (ext : ExternalInputs) (_s : AgentState) :
    Except String StatePatch :=
  .ok { rates := some [{ type := "GL", rate := 1 / 20 }],
        execution_time := some [("rates", ext.tRates)],
        cost_tracking := some [("rates", 2 / 10000)] }

/-- The risk level / score decision chain of `node_risk`. -/
def risk_level_score (email_lower industry : String) (rev : ℚ) :
    String × Nat :=
  if strContains email_lower "structural failures" ||
     strContains email_lower "nuclear" ||
     strContains email_lower "bankruptcy" then ("HIGH", 88)
  else if strContains industry "Construction" then ("HIGH", 80)
  else if strContains industry "Restaurant" then ("MEDIUM", 45)
  else if rev > 15000000 then ("HIGH", 85)
  else if rev > 5000000 then ("MEDIUM", 50)
  else ("LOW", 25)

/-- `nodes.py` `node_risk`. -/
def node_risk (ext : ExternalInputs) (s : AgentState) :
    Except String StatePatch :=
  match s.extracted_data with
  | none => .error "KeyError: extracted_data"
  | some data =>
      let rev := data.revenue
      let industry := data.industry
      let email_content := strLower s.input_email
      let ls := risk_level_score email_content industry rev
      .ok { risk_assessment :=
              some { level := ls.1, score := ls.2, revenue_factor := rev },
            is_referral := some (ls.1 == "HIGH"),
            execution_time := some [("risk", ext.tRisk)],
            cost_tracking := some [("risk", 1 / 10000)] }

/-- Assemble a `CalculationResult` from branch values; total premium and
authority determination are shared by every branch of `node_calculate`. -/
def mkCalc (gl_base : ℚ) (gl_formula : String) (loss_mod : ℚ)
    (loss_pct loss_formula : String) (auto_prem : ℚ)
    (auto_formula auto_desc : String) : CalculationResult :=
  let final_premium := gl_base + loss_mod + auto_prem
  { gl_base := gl_base, gl_formula := gl_formula,
    loss_modifier := loss_mod, loss_percent := loss_pct,
    loss_formula := loss_formula, auto_premium := auto_prem,
    auto_formula := auto_formula, auto_formula_desc := auto_desc,
    final_premium := final_premium,
    authority := if final_premium < 200000 then "APPROVED"
                 else "REQUIRES_REVIEW",
    coverage_analysis :=
      "Comprehensive coverage package tailored to industry risks." }

/-- The premium arithmetic of `node_calculate` (the "regex math" parity
logic), on the lowercased email, client name, industry and revenue. -/
def calcResult (email_lower client_name industry : String) (revenue : ℚ) :
    CalculationResult :=
  if strContains industry "Construction" ||
     strContains client_name "Construction" then
    let gl_base := (revenue / 1000) * (17 / 2)
    let severe := strContains email_lower "nuclear" ||
                  strContains email_lower "structural failures"
    mkCalc gl_base ("($" ++ fmt0 revenue ++ " / 1000) * Rate $8.50")
      (if severe then gl_base * 5 else gl_base * (3 / 20))
      (if severe then "Loss Mod (Severe Risk +500%)" else "Loss Mod (+15%)")
      (if severe then "Base $" ++ fmt0 gl_base ++ " * 5.0 (Extreme Hazard)"
       else fmt2 gl_base ++ " * 0.15 (High Risk Ind)")
      ((25 : ℚ) * 750) "25 vehicles * $750/vehicle" "Commercial Auto"
  else if strContains industry "Tech" || strContains industry "SaaS" ||
          strContains industry "Software" then
    mkCalc 500 "Standard Office GL (Flat)" 3500 "Cyber Liability"
      "Cyber Security (Base)" (revenue * (2 / 1000))
      ("Rev $" ++ fmt0 revenue ++ " * 0.002") "Professional Liability (E&O)"
  else if strContains industry "Restaurant" ||
          strContains client_name "Kitchen" then
    mkCalc ((revenue / 1000) * (11 / 2))
      ("($" ++ fmt0 revenue ++ " / 1000) * Rate $5.50")
      ((350000 : ℚ) * (2 / 100)) "Property Coverage" "$350,000 * Rate 0.02"
      (revenue * (30 / 100) * (8 / 1000)) "Rev * 30% (Alcohol) * 0.008"
      "Liquor Liability"
  else if strContains industry "Retail" || strContains industry "Boutique" ||
          strContains industry "Clothing" || strContains industry "Fashion" then
    -- the source reassigns `revenue = 850000` ("Fixed for parity with
    -- Legacy Model"): the extracted revenue is discarded in this branch
    let revenue2 : ℚ := 850000
    mkCalc 650 "Minimum Base Premium" ((175000 : ℚ) * (15 / 1000))
      "Property/Inventory" "$175,000 * Rate 0.015" (revenue2 * (5 / 1000))
      "Business Income Coverage" "Auto/Other Premium"
  else
    mkCalc ((revenue / 1000) * 5) "Standard Rate Apply" 0 "0%" "" 0 ""
      "Auto/Other"

/-- `nodes.py` `node_calculate`. -/
def node_calculate (ext : ExternalInputs) (s : AgentState) :
    Except String StatePatch :=
  match s.extracted_data with
  | none => .error "KeyError: extracted_data"
  | some data =>
      .ok { calculation :=
              some (calcResult (strLower s.input_email) data.client_name
                data.industry data.revenue),
            execution_time := some [("calculation", ext.tCalculate)],
            cost_tracking := some [("calculation", 0)] }

/-- The letter template of `node_quote`. -/
def quoteLetter (client industry_display : String) (final_prem : ℚ)
    (risk_level ref_id : String) : String :=
  "\nDear " ++ client ++
  ",\n\nThank you for your interest in our insurance services. We are pleased to present you with a comprehensive insurance quote tailored to your business needs.\n\nQUOTE SUMMARY:\nIndustry Classification: "
  ++ industry_display ++ "\nAnnual Premium: $" ++ fmt2 final_prem ++
  "\nRisk Assessment: " ++ risk_level ++
  "\n\nOur underwriting team has carefully reviewed your submission and determined that your business profile aligns well with our coverage standards. The quoted premium reflects current market conditions and your specific risk factors.\n\nCOVERAGE HIGHLIGHTS:\n• General Liability Coverage with competitive limits\n• Commercial Auto Coverage for your fleet\n• Professional risk management support\n• 24/7 claims assistance\n\nNEXT STEPS:\nTo proceed with this quote, please contact our team within 30 days. We're committed to providing you with exceptional service and comprehensive protection for your business.\n\nWe appreciate the opportunity to serve your insurance needs and look forward to partnering with you.\n\nBest regards,\nAI Underwriting Team\nInsurance Solutions Division\n\nQuote Reference: "
  ++ ref_id ++ "\nValid Until: 30 days from issue date\n"

/-- `nodes.py` `node_quote`: indexes `calculation`, `extracted_data` and
`risk_assessment`, so it raises when any of them was never written. -/
def node_quote (ext : ExternalInputs) (s : AgentState) :
    Except String StatePatch :=
  match s.calculation with
  | none => .error "KeyError: calculation"
  | some calcd =>
    match s.extracted_data with
    | none => .error "KeyError: extracted_data"
    | some data =>
      match s.risk_assessment with
      | none => .error "KeyError: risk_assessment"
      | some risk =>
        let client := data.client_name
        let final_prem := calcd.final_premium
        let risk_level := risk.level
        let industry_display := data.industry
        let ref_id := strUpper (strTake client 3) ++ "-" ++
          toString (ext.quoteStartTime % 10000)
        .ok { quote_letter := some (quoteLetter client industry_display
                final_prem risk_level ref_id),
              execution_time := some [("quote_gen", ext.tQuote)],
              cost_tracking := some [("quote_gen", 1 / 10000)] }

/-! ## Conditional routing (`graph.py`) -/

/-- `graph.py` `route_after_risk`: terminate early when the security scan
raised any flag (`state.get("security_flags") and len(...) > 0`, i.e. the
flags list is nonempty), otherwise proceed to calculation. -/
def route_after_risk (s : AgentState) : String :=
  if !s.security_flags.isEmpty then "END" else "calculate"

/-- `state.get("risk_assessment", {}).get("level")`: the risk level if the
risk channel has been written. -/
def riskLevelGet (s : AgentState) : Option String :=
  match s.risk_assessment with
  | some r => some r.level
  | none => none

/-- `graph.py` `route_after_calculation`: an approved thread goes straight
to `quote`; otherwise a HIGH risk level routes to `manual_review`.
(The source also reads `calculation` into a local that it never uses.) -/
def route_after_calculation (s : AgentState) : String :=
  if s.is_approved = some true then "quote"
  else if riskLevelGet s = some "HIGH" then "manual_review"
  else "quote"

/-! ## The compiled underwriting graph and its scheduler

The node set, edges, conditional-edge routing tables and the
`interrupt_before=["manual_review"]` marking are translated from
`build_graph` in `graph.py`.  The batch scheduler, checkpointing and
interrupt/resume protocol themselves live in the hosted framework, so they
are modelled from the specification (sections 4.2, 4.4 and 5): each
iteration runs the whole ready frontier as one concurrent batch, joins the
patches through `mergeBatch`, resolves outgoing edges against the
post-merge state, and pauses before any `interrupt_before` node that has
not been cleared by a resume. -/

/-- The nodes registered by `build_graph`. -/
inductive NodeId where
  | security | extract | industry | rates | risk | calculate | quote
  | manual_review
deriving Repr, DecidableEq

/-- `interrupt_before=["manual_review"]` from `workflow.compile`. -/
def interruptBefore : List NodeId := [.manual_review]

/-- The unconditional edges of `build_graph` (an edge to `END` contributes
no successor). -/
def uncondSuccs : NodeId → List NodeId
  | .security => [.extract]
  | .extract => [.industry, .rates, .risk]
  | .industry => [.calculate]
  | .rates => [.calculate]
  | .risk => []
  | .calculate => []
  | .quote => []
  | .manual_review => [.quote]

/-- The routing table of the conditional edge after `risk`
(`"END"` maps to the terminal). -/
def riskTable : List (String × Option NodeId) :=
  [("calculate", some .calculate), ("END", none)]

/-- The routing table of the conditional edge after `calculate`. -/
def calcTable : List (String × Option NodeId) :=
  [("quote", some .quote), ("manual_review", some .manual_review)]

/-- Resolve a node's conditional edge against the post-merge state: `ok []`
when there is none or it routes to the terminal, `ok [n]` for a selected
target, and `error label` for a label missing from the routing table (a
configuration error). -/
def condSuccs (s : AgentState) : NodeId → Except String (List NodeId)
  | .risk =>
      let label := route_after_risk s
      match List.lookup label riskTable with
      | none => .error label
      | some none => .ok []
      | some (some n) => .ok [n]
  | .calculate =>
      let label := route_after_calculation s
      match List.lookup label calcTable with
      | none => .error label
      | some none => .ok []
      | some (some n) => .ok [n]
  | _ => .ok []

/-- The node registry: each node body run against a read-only view of the
state, producing a patch or a failure.  The `manual_review` node of the
source is a lambda returning `{"stop_reason": ...}`, a key that is not a
declared `AgentState` channel, so its patch carries no declared field. -/
def runNode (ext : ExternalInputs) : NodeId → AgentState →
    Except String StatePatch
  | .security => node_security_scan ext
  | .extract => node_extract ext
  | .industry => node_industry ext
  | .rates => node_rates ext
  | .risk => node_risk ext
  | .calculate => node_calculate ext
  | .quote => node_quote ext
  | .manual_review => fun _ => .ok {}

/-- Modelled from the spec: `ExecutionResult` (section 4.2), extended with
the configuration-error outcome for an unmapped conditional label and a
fuel guard (the graph is a DAG of eight nodes, so fuel `10` is never
exhausted).  Every outcome carries the last successfully merged state and
the list of nodes invoked so far. -/
inductive ExecutionResult where
  | Completed (final : AgentState) (trace : List NodeId)
  | Paused (checkpoint : AgentState) (frontier : List NodeId)
      (trace : List NodeId)
  | Failed (node : NodeId) (err : String) (lastState : AgentState)
      (trace : List NodeId)
  | MergeFailure (e : MergeError) (lastState : AgentState)
      (trace : List NodeId)
  | ConfigError (label : String) (lastState : AgentState)
      (trace : List NodeId)
  | OutOfFuel (lastState : AgentState) (trace : List NodeId)
deriving Repr, DecidableEq

/-- The first node of a batch whose invocation failed, with its error. -/
def firstFailure : List (NodeId × Except String StatePatch) →
    Option (NodeId × String)
  | [] => none
  | (n, .error e) :: _ => some (n, e)
  | (_, .ok _) :: rest => firstFailure rest

/-- The patches of the successfully completed invocations of a batch, in
batch order. -/
def okPatches : List (NodeId × Except String StatePatch) → List StatePatch
  | [] => []
  | (_, .error _) :: rest => okPatches rest
  | (_, .ok p) :: rest => p :: okPatches rest

/-- Resolve the outgoing edges of every node of the completed batch against
the post-merge state: unconditional targets plus the resolved conditional
target, deduplicated, minus already-executed nodes (spec section 4.2,
steps e and f). -/
def nextFrontierAux (s : AgentState) : List NodeId →
    Except String (List NodeId)
  | [] => .ok []
  | n :: rest =>
    match condSuccs s n with
    | .error label => .error label
    | .ok cs =>
      match nextFrontierAux s rest with
      | .error label => .error label
      | .ok rs => .ok (uncondSuccs n ++ cs ++ rs)

/-- See `nextFrontierAux`; the collected targets are deduplicated and
already-executed nodes are dropped. -/
def nextFrontier (s : AgentState) (batch executed : List NodeId) :
    Except String (List NodeId) :=
  match nextFrontierAux s batch with
  | .error label => .error label
  | .ok acc => .ok (acc.eraseDups.filter (fun n => !executed.contains n))

/-- Modelled from the spec: the scheduler loop (section 4.2).  One
iteration per batch: an empty frontier completes the run; a frontier node
in `interrupt_before` not cleared for this thread pauses the run with a
checkpoint; otherwise the whole frontier is invoked concurrently, a
failure keeps the merged sibling patches and aborts with `Failed`, and a
successful batch is merged and its outgoing edges resolved. -/
def runLoop (ext : ExternalInputs) :
    Nat → AgentState → List NodeId → List NodeId → List NodeId →
    ExecutionResult
  | 0, s, _, executed, _ => .OutOfFuel s executed
  | fuel + 1, s, frontier, executed, cleared =>
    if frontier.isEmpty then .Completed s executed
    else if frontier.any
        (fun n => interruptBefore.contains n && !cleared.contains n) then
      .Paused s frontier executed
    else
      let results := frontier.map (fun n => (n, runNode ext n s))
      match mergeBatch s (okPatches results) with
      | .error me => .MergeFailure me s (executed ++ frontier)
      | .ok s2 =>
        match firstFailure results with
        | some (n, e) => .Failed n e s2 (executed ++ frontier)
        | none =>
          match nextFrontier s2 frontier executed with
          | .error label => .ConfigError label s2 (executed ++ frontier)
          | .ok fr2 => runLoop ext fuel s2 fr2 (executed ++ frontier) cleared

/-- The initial state built by the callers (`web_app_agentic.py`): only
`input_email` and `quote_id` are supplied. -/
def initialState (email quoteId : String) : AgentState where
  input_email := email
  quote_id := quoteId
  extracted_data := none
  industry_classification := none
  rates := none
  risk_assessment := none
  calculation := none
  quote_letter := none
  error := none
  is_referral := false
  is_approved := none
  pillars := none
  cost_tracking := []
  execution_time := []
  security_flags := []

/-- A fresh run of the compiled graph from the initial state: frontier
`{Start}`'s successor `security`, nothing executed, no interrupt cleared. -/
def runPipeline (ext : ExternalInputs) (email quoteId : String) :
    ExecutionResult :=
  runLoop ext 10 (initialState email quoteId) [.security] [] []

/-- The approval patch posted by `approve_quote` in `web_app_agentic.py`
(`graph_app.update_state(config, {"is_approved": True})`). -/
def approvalPatch : StatePatch := { is_approved := some true }

/-- Modelled from the spec: `resume` (section 4.4) as driven by
`approve_quote` — apply the caller's patch to the checkpointed state via
the same merge rules, clear the `pause_before` block for the nodes of the
saved frontier, and re-enter the scheduler loop with that frontier. -/
def resumeRun (ext : ExternalInputs) (checkpoint : AgentState)
    (frontier trace : List NodeId) : ExecutionResult :=
  runLoop ext 10 (applyPatch checkpoint approvalPatch) frontier trace
    frontier

/-- The state carried by an execution outcome. -/
def stateOf : ExecutionResult → AgentState
  | .Completed s _ => s
  | .Paused s _ _ => s
  | .Failed _ _ s _ => s
  | .MergeFailure _ s _ => s
  | .ConfigError _ s _ => s
  | .OutOfFuel s _ => s

/-- The nodes an execution outcome reports as invoked. -/
def traceOf : ExecutionResult → List NodeId
  | .Completed _ t => t
  | .Paused _ _ t => t
  | .Failed _ _ _ t => t
  | .MergeFailure _ _ t => t
  | .ConfigError _ _ t => t
  | .OutOfFuel _ t => t

/-- Did the run complete? -/
def isCompleted : ExecutionResult → Bool
  | .Completed _ _ => true
  | _ => false

/-- Did the run pause? -/
def isPaused : ExecutionResult → Bool
  | .Paused _ _ _ => true
  | _ => false

/-- The failing node of a `Failed` outcome. -/
def failedNode : ExecutionResult → Option NodeId
  | .Failed n _ _ _ => some n
  | _ => none

/-! ## Graph compilation (spec section 4.1)

The repository's `build_graph` hands the graph to the hosted framework's
`workflow.compile`; the build-time validation contract is modelled from
the specification: `compile(nodes, edges, ..., start)` validates endpoint
registration, start registration, reachability and acyclicity (a
topological sort must succeed) and fails fast with a `CompileError`. -/

/-- Modelled from the spec: a graph definition as submitted to `compile`
(section 4.1) — registered node identifiers, directed edges (a target may
be the terminal, written `"END"`), and the start node.  Conditional edges
contribute one `(from, target)` pair per routing-table entry. -/
structure GraphDefn where
  nodes : List String
  edges : List (String × String)
  start : String

/-- Modelled from the spec: `CompileError` (section 4.1). -/
inductive CompileError where
  | duplicateNode
  | unknownStart
  | unknownEndpoint
  | unreachable
  | cyclic
deriving Repr, DecidableEq

/-- The edges between registered nodes; edges into the terminal impose no
ordering constraint. -/
def internalEdges (g : GraphDefn) : List (String × String) :=
  g.edges.filter (fun e => e.2 != "END")

/-- A node of `remaining` with no incoming edge from `remaining`: the next
node Kahn's algorithm may emit. -/
def pickReady (edges : List (String × String)) (remaining : List String) :
    Option String :=
  remaining.find? (fun n => remaining.all (fun m => !decide ((m, n) ∈ edges)))

/-- Kahn's topological sort: repeatedly emit a node with no incoming edge
among the not-yet-emitted ones; `none` when stuck on a nonempty remainder,
which is exactly a cycle. -/
def kahn (edges : List (String × String)) :
    Nat → List String → List String → Option (List String)
  | 0, remaining, acc => if remaining.isEmpty then some acc else none
  | fuel + 1, remaining, acc =>
    if remaining.isEmpty then some acc
    else
      match pickReady edges remaining with
      | none => none
      | some n => kahn edges fuel (remaining.erase n) (acc ++ [n])

/-- The targets of the edges leaving `n`. -/
def succsOf (edges : List (String × String)) (n : String) : List String :=
  edges.filterMap (fun e => if e.1 = n then some e.2 else none)

/-- One round of the reachability walk: all successors of the visited set
not yet visited. -/
def newReach (edges : List (String × String)) (visited : List String) :
    List String :=
  (visited.foldl (fun acc n => acc ++ succsOf edges n) []).filter
    (fun x => !visited.contains x)

/-- Fuel-bounded reachability closure. -/
def reachAux (edges : List (String × String)) :
    Nat → List String → List String
  | 0, visited => visited
  | fuel + 1, visited =>
    let new := newReach edges visited
    if new.isEmpty then visited
    else reachAux edges fuel (visited ++ new).eraseDups

/-- Modelled from the spec: `compile` (section 4.1) — validates that node
identifiers are unique, that the start and every edge endpoint are
registered (or the terminal), that every node is reachable from start, and
that no cycle exists (the topological sort must succeed); any violation
fails fast with a `CompileError`, otherwise the topological order of the
compiled plan is returned. -/
def compile (g : GraphDefn) : Except CompileError (List String) :=
  if !decide g.nodes.Nodup then .error .duplicateNode
  else if !decide (g.start ∈ g.nodes) then .error .unknownStart
  else if !g.edges.all (fun e => decide (e.1 ∈ g.nodes) &&
      (decide (e.2 ∈ g.nodes) || decide (e.2 = "END"))) then
    .error .unknownEndpoint
  else if !g.nodes.all (fun n =>
      (reachAux (internalEdges g) g.nodes.length [g.start]).contains n) then
    .error .unreachable
  else
    match kahn (internalEdges g) g.nodes.length g.nodes [] with
    | none => .error .cyclic
    | some order => .ok order

/-- Position of the first occurrence of `x` in `l` (`l.length` if absent). -/
def idx : List String → String → Nat
  | [], _ => 0
  | a :: as, x => if a = x then 0 else idx as x + 1

/-- `order` is a topological ordering of `g`: it lists every registered
node without duplicates and every edge between registered nodes goes
strictly forward in it. -/
def IsTopoOrder (g : GraphDefn) (order : List String) : Prop :=
  order.Nodup ∧ (∀ n ∈ g.nodes, n ∈ order) ∧
  (∀ e ∈ internalEdges g, idx order e.1 < idx order e.2)

/-- `g` contains a directed cycle: a nonempty chain of internal edges
leading from some node `u` back to `u`. -/
def HasCycle (g : GraphDefn) : Prop :=
  ∃ (u : String) (l : List String),
    List.Chain (fun a b => (a, b) ∈ internalEdges g) u (l ++ [u])

/-- The underwriting graph of `build_graph` as a graph definition: every
`add_edge` pair plus one pair per conditional routing-table entry. -/
def gDemo : GraphDefn :=
  { nodes := ["security", "extract", "industry", "rates", "risk",
              "calculate", "quote", "manual_review"],
    edges := [("security", "extract"), ("extract", "industry"),
              ("extract", "rates"), ("extract", "risk"),
              ("risk", "calculate"), ("risk", "END"),
              ("industry", "calculate"), ("rates", "calculate"),
              ("calculate", "quote"), ("calculate", "manual_review"),
              ("quote", "END"), ("manual_review", "quote")],
    start := "security" }

/-- A two-node graph with a back edge (a directed cycle). -/
def gCycle : GraphDefn :=
  { nodes := ["a", "b"], edges := [("a", "b"), ("b", "a")], start := "a" }

/-! ## Disjointness of patches -/

/-- No `AgentState` field is written by both patches. -/
def PatchesDisjoint (p q : StatePatch) : Prop :=
  ∀ f : Field, ¬(writes p f = true ∧ writes q f = true)

/-- Key sets of two dicts are disjoint. -/
def DictKeysDisjoint {V : Type} (a b : PyDict V) : Prop :=
  ∀ k ∈ a.map Prod.fst, k ∉ b.map Prod.fst

/-! ## Concrete example inputs used by witnesses -/

/-- Extraction output of the retail renewal scenario of the demo UI. -/
def dRetail : ExtractedData :=
  { client_name := "Fashion Forward Boutique", industry := "Retail",
    revenue := 850000, employees := 5, address := none,
    coverage_needs := ["General Liability"] }

/-- Extraction output of the construction scenario of the demo UI. -/
def dConstruction : ExtractedData :=
  { client_name := "ABC Construction Corp", industry := "Construction",
    revenue := 15000000, employees := 85, address := none,
    coverage_needs := ["General Liability", "Auto Liability"] }

/-- External inputs with a successful extraction outcome. -/
def extOk (d : ExtractedData) : ExternalInputs :=
  { extractResult := .ok d, tSecurity := 1, tExtract := 2, tIndustry := 3,
    tRates := 4, tRisk := 5, tCalculate := 6, tQuote := 7,
    quoteStartTime := 42 }

/-- External inputs where the extraction chain raises. -/
def extFail (msg : String) : ExternalInputs :=
  { extractResult := .error msg, tSecurity := 1, tExtract := 2,
    tIndustry := 3, tRates := 4, tRisk := 5, tCalculate := 6, tQuote := 7,
    quoteStartTime := 42 }

/-! ## The intermediate states of a run of the compiled graph

Each definition below spells out the merged state after one scheduler
batch, as a function of the external inputs; the step lemmas further down
prove that `runLoop` walks exactly through these states.  `flags`
abstracts the security-scan outcome and `ls` the risk level/score pair
computed by `node_risk`. -/

/-- State after the `security` batch. -/
def stateAfterSecurity (ext : ExternalInputs) (email qid : String)
    (flags : List String) : AgentState :=
  applyPatch (initialState email qid)
    { security_flags := some flags,
      execution_time := some [("security", ext.tSecurity)],
      cost_tracking := some [("security", track_cost email)] }

/-- State after a successful `extract` batch. -/
def stateAfterExtract (ext : ExternalInputs) (email qid : String)
    (flags : List String) (d : ExtractedData) : AgentState :=
  applyPatch (stateAfterSecurity ext email qid flags)
    { extracted_data := some d,
      execution_time := some [("extraction", ext.tExtract)],
      cost_tracking := some [("extraction",
        track_cost email + track_cost (toString (repr d)))] }

/-- State after an `extract` batch whose extraction chain raised: only the
`error` channel is written. -/
def stateAfterExtractFail (ext : ExternalInputs) (email qid : String)
    (flags : List String) (msg : String) : AgentState :=
  applyPatch (stateAfterSecurity ext email qid flags) { error := some msg }

/-- The patch written by `node_rates`. -/
def ratesPatch (ext : ExternalInputs) : StatePatch :=
  { rates := some [{ type := "GL", rate := 1 / 20 }],
    execution_time := some [("rates", ext.tRates)],
    cost_tracking := some [("rates", 2 / 10000)] }

/-- State after the parallel `industry`/`rates`/`risk` batch. -/
def stateAfterParallel (ext : ExternalInputs) (email qid : String)
    (flags : List String) (d : ExtractedData) (ls : String × Nat) :
    AgentState :=
  applyPatch (applyPatch (applyPatch (stateAfterExtract ext email qid flags d)
    { industry_classification :=
        some { name := d.industry, code := "NAICS-123" },
      execution_time := some [("industry", ext.tIndustry)],
      cost_tracking := some [("industry", 1 / 10000)] })
    (ratesPatch ext))
    { risk_assessment :=
        some { level := ls.1, score := ls.2, revenue_factor := d.revenue },
      is_referral := some (ls.1 == "HIGH"),
      execution_time := some [("risk", ext.tRisk)],
      cost_tracking := some [("risk", 1 / 10000)] }

/-- The reported state of a run whose extraction raised: the failing
parallel batch keeps the sibling `rates` patch next to the `error` field
written by `node_extract`. -/
def stateFailedRun (ext : ExternalInputs) (email qid msg : String) :
    AgentState :=
  applyPatch (stateAfterExtractFail ext email qid (securityFlagsOf email) msg)
    (ratesPatch ext)

/-- State after the `calculate` batch. -/
def stateAfterCalc (ext : ExternalInputs) (email qid : String)
    (flags : List String) (d : ExtractedData) (ls : String × Nat) :
    AgentState :=
  applyPatch (stateAfterParallel ext email qid flags d ls)
    { calculation := some (calcResult (strLower email) d.client_name
        d.industry d.revenue),
      execution_time := some [("calculation", ext.tCalculate)],
      cost_tracking := some [("calculation", 0)] }

/-- The patch written by `node_quote`. -/
def quotePatch (ext : ExternalInputs) (email : String) (d : ExtractedData)
    (ls : String × Nat) : StatePatch :=
  { quote_letter := some (quoteLetter d.client_name d.industry
      (calcResult (strLower email) d.client_name d.industry
        d.revenue).final_premium ls.1
      (strUpper (strTake d.client_name 3) ++ "-" ++
        toString (ext.quoteStartTime % 10000))),
    execution_time := some [("quote_gen", ext.tQuote)],
    cost_tracking := some [("quote_gen", 1 / 10000)] }

/-- Final state of an uninterrupted run (quote generated directly). -/
def stateAfterQuote (ext : ExternalInputs) (email qid : String)
    (flags : List String) (d : ExtractedData) (ls : String × Nat) :
    AgentState :=
  applyPatch (stateAfterCalc ext email qid flags d ls)
    (quotePatch ext email d ls)

/-- Final state of a paused-then-approved run: the approval patch, the
(empty) `manual_review` patch and the `quote` patch applied on top of the
checkpointed state. -/
def resumedFinalState (ext : ExternalInputs) (email qid : String)
    (flags : List String) (d : ExtractedData) (ls : String × Nat) :
    AgentState :=
  applyPatch (applyPatch (applyPatch (stateAfterCalc ext email qid flags d ls)
    approvalPatch) {}) (quotePatch ext email d ls)

/-! ## Lemmas about dict merging -/

/-- `List.lookup` distributes over append. -/
theorem lookup_append_or {V : Type} (l1 l2 : PyDict V) (k : String) :
    List.lookup k (l1 ++ l2) = (List.lookup k l1).or (List.lookup k l2) := by
  induction l1 with
  | nil => simp [List.lookup]
  | cons p rest ih =>
      obtain ⟨k0, v0⟩ := p
      cases hbk : k == k0 <;> simp [List.lookup, hbk, ih]

/-- Lookup in the overridden copy of the first merge operand. -/
theorem lookup_map_override {V : Type} (a b : PyDict V) (k : String) :
    List.lookup k (a.map (fun p => match List.lookup p.1 b with
                   | some v => (p.1, v)
                   | none => p)) =
    match List.lookup k a with
    | none => none
    | some w => (match List.lookup k b with
                 | some v => some v
                 | none => some w) := by
  induction a with
  | nil => simp [List.lookup]
  | cons p rest ih =>
      obtain ⟨k0, v0⟩ := p
      cases hbk : k == k0
      · cases hb : List.lookup k0 b <;>
          simp [List.lookup, hbk, hb, ih]
      · have hk : k = k0 := eq_of_beq hbk
        subst hk
        cases hb : List.lookup k b <;> simp [List.lookup, hbk, hb]

/-- Lookup in the second merge operand filtered to fresh keys. -/
theorem lookup_filter_unset {V : Type} (a b : PyDict V) (k : String) :
    List.lookup k (b.filter (fun p => (List.lookup p.1 a).isNone)) =
    if (List.lookup k a).isNone then List.lookup k b else none := by
  induction b with
  | nil => simp [List.lookup]
  | cons p rest ih =>
      obtain ⟨k0, v0⟩ := p
      cases hbk : k == k0
      · cases ha : List.lookup k0 a <;>
          simp [List.lookup, List.filter, hbk, ha, ih]
      · have hk : k = k0 := eq_of_beq hbk
        subst hk
        cases ha : List.lookup k a <;>
          simp [List.lookup, List.filter, hbk, ha, ih]

/-- `{**a, **b}` looks up like: value from `b` if present, else from `a`. -/
theorem lookup_merge_dicts {V : Type} (a b : PyDict V) (k : String) :
    List.lookup k (merge_dicts a b) =
    (List.lookup k b).or (List.lookup k a) := by
  rw [merge_dicts, lookup_append_or, lookup_map_override, lookup_filter_unset]
  cases ha : List.lookup k a <;> cases hb : List.lookup k b <;> simp

/-- A successful lookup means the key occurs in the dict's key list. -/
theorem lookup_isSome_mem_keys {V : Type} (l : PyDict V) (k : String)
    (h : (List.lookup k l).isSome = true) : k ∈ l.map Prod.fst := by
  induction l with
  | nil => simp [List.lookup] at h
  | cons p rest ih =>
      obtain ⟨k0, v0⟩ := p
      cases hbk : k == k0
      · simp only [List.lookup, hbk] at h
        simpa using Or.inr (ih h)
      · have hk : k = k0 := eq_of_beq hbk
        subst hk
        simp

/-! ## Commutation helper lemmas for the merge policies -/

/-- Two overwrites at most one of which is present commute. -/
theorem or_comm_disjoint {α : Type} (c a b : Option α)
    (h : ¬(a.isSome = true ∧ b.isSome = true)) :
    Option.or b (Option.or a c) = Option.or a (Option.or b c) := by
  cases a <;> cases b <;> first | rfl | exact absurd ⟨rfl, rfl⟩ h

/-- Two defaulted overwrites at most one of which is present commute. -/
theorem getD_comm_disjoint {α : Type} (c : α) (a b : Option α)
    (h : ¬(a.isSome = true ∧ b.isSome = true)) :
    b.getD (a.getD c) = a.getD (b.getD c) := by
  cases a <;> cases b <;> first | rfl | exact absurd ⟨rfl, rfl⟩ h

/-- Two reducer applications at most one of which is present commute. -/
theorem applyRed_comm_disjoint {α β : Type} (red : α → β → α) (c : α)
    (a b : Option β) (h : ¬(a.isSome = true ∧ b.isSome = true)) :
    applyRed red (applyRed red c a) b = applyRed red (applyRed red c b) a := by
  cases a <;> cases b <;> first | rfl | exact absurd ⟨rfl, rfl⟩ h

/-- Patches writing disjoint field sets apply in either order with the
same result. -/
theorem applyPatch_comm (s : AgentState) (p q : StatePatch)
    (h : PatchesDisjoint p q) :
    applyPatch (applyPatch s p) q = applyPatch (applyPatch s q) p := by
  have h1 := h .input_email
  have h2 := h .quote_id
  have h3 := h .extracted_data
  have h4 := h .industry_classification
  have h5 := h .rates
  have h6 := h .risk_assessment
  have h7 := h .calculation
  have h8 := h .quote_letter
  have h9 := h .error
  have h10 := h .is_referral
  have h11 := h .is_approved
  have h12 := h .pillars
  have h13 := h .cost_tracking
  have h14 := h .execution_time
  have h15 := h .security_flags
  simp only [writes] at h1 h2 h3 h4 h5 h6 h7 h8 h9 h10 h11 h12 h13 h14 h15
  simp only [applyPatch, AgentState.mk.injEq]
  exact ⟨getD_comm_disjoint _ _ _ h1, getD_comm_disjoint _ _ _ h2,
    or_comm_disjoint _ _ _ h3, or_comm_disjoint _ _ _ h4,
    or_comm_disjoint _ _ _ h5, or_comm_disjoint _ _ _ h6,
    or_comm_disjoint _ _ _ h7, or_comm_disjoint _ _ _ h8,
    or_comm_disjoint _ _ _ h9, getD_comm_disjoint _ _ _ h10,
    or_comm_disjoint _ _ _ h11, or_comm_disjoint _ _ _ h12,
    applyRed_comm_disjoint merge_dicts _ _ _ h13,
    applyRed_comm_disjoint merge_dicts _ _ _ h14,
    applyRed_comm_disjoint list_add _ _ _ h15⟩

/-! ## Claim C1 -/

/-- C1, as stated, is false: two concurrent patches to the same
Shallow-merge key, and two concurrent patches to an Append field, yield
different merged values depending on application order. -/
theorem c1_counterexample :
    List.lookup "x" (applyPatch (applyPatch (initialState "e" "q")
        { cost_tracking := some [("x", (1 : ℚ))] })
        { cost_tracking := some [("x", 2)] }).cost_tracking ≠
      List.lookup "x" (applyPatch (applyPatch (initialState "e" "q")
        { cost_tracking := some [("x", (2 : ℚ))] })
        { cost_tracking := some [("x", 1)] }).cost_tracking ∧
    (applyPatch (applyPatch (initialState "e" "q")
        { security_flags := some ["A"] })
        { security_flags := some ["B"] }).security_flags ≠
      (applyPatch (applyPatch (initialState "e" "q")
        { security_flags := some ["B"] })
        { security_flags := some ["A"] }).security_flags := by
  constructor
  · decide
  · decide

/-- C1 (amended): the reducer merge is order-independent only up to key
and field disjointness — `merge_dicts` commutes on dicts with disjoint
keys, `operator.add` commutes up to permutation of the appended flags, and
patches targeting distinct `AgentState` fields merge to the same state in
either order. -/
theorem c1_theorem :
    (∀ (V : Type) (a b : PyDict V) (k : String), DictKeysDisjoint a b →
       List.lookup k (merge_dicts a b) = List.lookup k (merge_dicts b a)) ∧
    (∀ (V : Type) (a b : List V), (list_add a b).Perm (list_add b a)) ∧
    (∀ (s : AgentState) (p q : StatePatch), PatchesDisjoint p q →
       applyPatch (applyPatch s p) q = applyPatch (applyPatch s q) p) := by
  refine ⟨?_, ?_, ?_⟩
  · intro V a b k hd
    rw [lookup_merge_dicts, lookup_merge_dicts]
    cases ha : List.lookup k a <;> cases hb : List.lookup k b <;>
      try rfl
    exact absurd (lookup_isSome_mem_keys b k (by simp [hb]))
      (hd k (lookup_isSome_mem_keys a k (by simp [ha])))
  · intro V a b
    exact List.perm_append_comm
  · exact applyPatch_comm

/-- C1 witness: the amended commutativity evaluated on concrete disjoint
patches. -/
theorem c1_witness :
    List.lookup "x" (merge_dicts [("x", (1 : ℚ))] [("y", 2)]) =
      List.lookup "x" (merge_dicts [("y", (2 : ℚ))] [("x", 1)]) ∧
    (list_add ["A"] ["B"]).Perm (list_add ["B"] ["A"]) ∧
    applyPatch (applyPatch (initialState "e" "q")
        { cost_tracking := some [("security", (1 : ℚ))] })
        { execution_time := some [("security", 2)] } =
      applyPatch (applyPatch (initialState "e" "q")
        { execution_time := some [("security", (2 : ℚ))] })
        { cost_tracking := some [("security", 1)] } :=
  ⟨c1_theorem.1 ℚ [("x", 1)] [("y", 2)] "x"
     (by unfold DictKeysDisjoint; decide),
   c1_theorem.2.1 String ["A"] ["B"],
   c1_theorem.2.2 _ _ _ (by unfold PatchesDisjoint; decide)⟩

/-! ## Claim C5 -/

/-- C5: whenever two patches of one batch write the same Overwrite-policy
field (any `AgentState` field without an `Annotated` reducer), the batch
merge surfaces a `MergeError` to the caller — it never returns a merged
state that silently picked one writer. -/
theorem c5_theorem (s : AgentState) (ps : List StatePatch) (f : Field)
    (hf : f ∈ overwriteFields)
    (hcount : 2 ≤ ps.countP (fun p => writes p f)) :
    ∃ e : MergeError, mergeBatch s ps = .error e := by
  unfold mergeBatch
  have hmem : f ∈ overwriteFields.filter
      (fun g => 2 ≤ ps.countP (fun p => writes p g)) := by
    simp only [List.mem_filter, decide_eq_true_eq]
    exact ⟨hf, hcount⟩
  cases hfil : overwriteFields.filter
      (fun g => 2 ≤ ps.countP (fun p => writes p g)) with
  | nil => rw [hfil] at hmem; simp at hmem
  | cons g rest => exact ⟨.conflict g, rfl⟩

/-- C5 witness: two patches writing `extracted_data` in one batch make the
merge fail. -/
theorem c5_witness :
    ∃ e : MergeError, mergeBatch (initialState "e" "q")
      [{ extracted_data := some dRetail },
       { extracted_data := some dConstruction }] = .error e :=
  c5_theorem _ _ .extracted_data (by decide) (by decide)

/-! ## Claim C8 -/

/-- C8: once `is_approved` is true, `route_after_calculation` selects
`"quote"` for every state — in particular even when the risk level is
`"HIGH"`, so an approved thread is never routed to `manual_review`
again. -/
theorem c8_theorem (s : AgentState) (h : s.is_approved = some true) :
    route_after_calculation s = "quote" := by
  unfold route_after_calculation
  simp [h]

/-- C8 witness: an approved state with a HIGH risk assessment still routes
to `"quote"`. -/
theorem c8_witness :
    route_after_calculation
      { initialState "e" "q" with
        is_approved := some true,
        risk_assessment := some { level := "HIGH", score := 88,
                                  revenue_factor := 15000000 } } = "quote" :=
  c8_theorem _ rfl

/-! ## Claim C9 -/

/-- C9: on the Retail/Boutique/Clothing/Fashion branch (no earlier branch
matching), `node_calculate` discards the extracted revenue: the premium is
computed with revenue fixed at 850000, so `final_premium` is exactly
`650 + 175000 * 0.015 + 850000 * 0.005 = 7525` for every revenue. -/
theorem c9_theorem (ext : ExternalInputs) (s : AgentState)
    (d : ExtractedData) (hd : s.extracted_data = some d)
    (hc1 : strContains d.industry "Construction" = false)
    (hc2 : strContains d.client_name "Construction" = false)
    (ht1 : strContains d.industry "Tech" = false)
    (ht2 : strContains d.industry "SaaS" = false)
    (ht3 : strContains d.industry "Software" = false)
    (hr1 : strContains d.industry "Restaurant" = false)
    (hr2 : strContains d.client_name "Kitchen" = false)
    (hretail : strContains d.industry "Retail" = true ∨
               strContains d.industry "Boutique" = true ∨
               strContains d.industry "Clothing" = true ∨
               strContains d.industry "Fashion" = true) :
    node_calculate ext s = .ok
      { calculation := some (calcResult (strLower s.input_email) d.client_name
          d.industry d.revenue),
        execution_time := some [("calculation", ext.tCalculate)],
        cost_tracking := some [("calculation", 0)] } ∧
    (calcResult (strLower s.input_email) d.client_name d.industry
        d.revenue).final_premium =
      650 + 175000 * (15 / 1000) + 850000 * (5 / 1000) ∧
    (calcResult (strLower s.input_email) d.client_name d.industry
        d.revenue).final_premium = 7525 := by
  refine ⟨by unfold node_calculate; rw [hd], ?_, ?_⟩ <;>
  · unfold calcResult
    rcases hretail with h | h | h | h <;>
      simp [hc1, hc2, ht1, ht2, ht3, hr1, hr2, h, mkCalc] <;> norm_num

/-- C9 witness: a Retail client with an extracted revenue of 123456789
still gets a 7525 premium. -/
theorem c9_witness :
    node_calculate (extOk { dRetail with revenue := 123456789 })
      { initialState "email" "q" with
        extracted_data := some { dRetail with revenue := 123456789 } } = .ok
      { calculation := some (calcResult "email"
          "Fashion Forward Boutique" "Retail" 123456789),
        execution_time := some [("calculation", 6)],
        cost_tracking := some [("calculation", 0)] } ∧
    (calcResult "email" "Fashion Forward Boutique" "Retail"
        123456789).final_premium = 650 + 175000 * (15 / 1000) +
      850000 * (5 / 1000) ∧
    (calcResult "email" "Fashion Forward Boutique" "Retail"
        123456789).final_premium = 7525 :=
  c9_theorem (extOk { dRetail with revenue := 123456789 }) _
    { dRetail with revenue := 123456789 } rfl rfl rfl rfl rfl rfl rfl rfl
    (Or.inl rfl)

/-! ## Claim C10 -/

/-- C10: both routing predicates only return labels of their routing
tables, every such label is mapped, and hence the unmapped-label
configuration-error branch of the conditional-edge resolution is
unreachable for this graph. -/
theorem c10_theorem (s : AgentState) :
    (route_after_risk s = "calculate" ∨ route_after_risk s = "END") ∧
    (route_after_calculation s = "quote" ∨
     route_after_calculation s = "manual_review") ∧
    (List.lookup (route_after_risk s) riskTable).isSome = true ∧
    (List.lookup (route_after_calculation s) calcTable).isSome = true ∧
    (∃ l, condSuccs s .risk = .ok l) ∧
    (∃ l, condSuccs s .calculate = .ok l) := by
  have hr : route_after_risk s = "calculate" ∨
      route_after_risk s = "END" := by
    unfold route_after_risk
    split <;> simp
  have hc : route_after_calculation s = "quote" ∨
      route_after_calculation s = "manual_review" := by
    unfold route_after_calculation
    by_cases h1 : s.is_approved = some true
    · simp [h1]
    · by_cases h2 : riskLevelGet s = some "HIGH"
      · simp [h1, h2]
      · simp [h1, h2]
  refine ⟨hr, hc, ?_, ?_, ?_, ?_⟩
  · rcases hr with h | h <;> rw [h] <;> rfl
  · rcases hc with h | h <;> rw [h] <;> rfl
  · rcases hr with h | h
    · exact ⟨[.calculate], by simp only [condSuccs]; rw [h]; rfl⟩
    · exact ⟨[], by simp only [condSuccs]; rw [h]; rfl⟩
  · rcases hc with h | h
    · exact ⟨[.quote], by simp only [condSuccs]; rw [h]; rfl⟩
    · exact ⟨[.manual_review], by simp only [condSuccs]; rw [h]; rfl⟩

/-! ## Step lemmas: `runLoop` walks through the batch states

Each lemma advances the scheduler by exactly one batch; the interesting
content is that the follow-up frontier is what the activated edges
dictate.  `cl` (the cleared-interrupt list) and the fuel are generic
wherever the step does not depend on them. -/

/-- Batch 1: `security` runs and unlocks `extract`. -/
theorem runStep_security (ext : ExternalInputs) (f : Nat)
    (email qid : String) (cl : List NodeId) :
    runLoop ext (f + 1) (initialState email qid) [.security] [] cl =
    runLoop ext f (stateAfterSecurity ext email qid (securityFlagsOf email))
      [.extract] [.security] cl := rfl

/-- Batch 2 (successful extraction): `extract` unlocks the parallel
fan-out `industry`/`rates`/`risk`. -/
theorem runStep_extract (ext : ExternalInputs) (f : Nat)
    (email qid : String) (d : ExtractedData) (flags : List String)
    (cl : List NodeId) (h : ext.extractResult = .ok d) :
    runLoop ext (f + 1) (stateAfterSecurity ext email qid flags)
      [.extract] [.security] cl =
    runLoop ext f (stateAfterExtract ext email qid flags d)
      [.industry, .rates, .risk] [.security, .extract] cl := by
  obtain ⟨er, t1, t2, t3, t4, t5, t6, t7, n1⟩ := ext
  have h2 : er = Except.ok d := h
  subst h2
  rfl

/-- Batch 2 (raising extraction): `node_extract` catches the exception,
writes only the `error` channel, and the batch still succeeds. -/
theorem runStep_extract_fail (ext : ExternalInputs) (f : Nat)
    (email qid msg : String) (flags : List String)
    (cl : List NodeId) (h : ext.extractResult = .error msg) :
    runLoop ext (f + 1) (stateAfterSecurity ext email qid flags)
      [.extract] [.security] cl =
    runLoop ext f (stateAfterExtractFail ext email qid flags msg)
      [.industry, .rates, .risk] [.security, .extract] cl := by
  obtain ⟨er, t1, t2, t3, t4, t5, t6, t7, n1⟩ := ext
  have h2 : er = Except.error msg := h
  subst h2
  rfl

/-- Batch 3: the parallel nodes all run and merge; `calculate` becomes
ready through the unconditional `industry`/`rates` edges whether or not
the conditional edge after `risk` selects it. -/
theorem runStep_parallel (ext : ExternalInputs) (f : Nat)
    (email qid : String) (flags : List String) (d : ExtractedData)
    (cl : List NodeId) :
    runLoop ext (f + 1) (stateAfterExtract ext email qid flags d)
      [.industry, .rates, .risk] [.security, .extract] cl =
    runLoop ext f (stateAfterParallel ext email qid flags d
        (risk_level_score (strLower email) d.industry d.revenue))
      [.calculate] [.security, .extract, .industry, .rates, .risk] cl := by
  cases flags <;> rfl

/-- Batch 3 after a failed extraction: `node_industry` raises on the
missing `extracted_data` channel; the sibling `rates` patch is merged and
kept, and the run aborts naming `industry` — `calculate` and `quote` are
never invoked. -/
theorem runStep_parallel_fail (ext : ExternalInputs) (f : Nat)
    (email qid msg : String) (flags : List String) (cl : List NodeId) :
    runLoop ext (f + 1) (stateAfterExtractFail ext email qid flags msg)
      [.industry, .rates, .risk] [.security, .extract] cl =
    .Failed .industry "KeyError: extracted_data"
      (applyPatch (stateAfterExtractFail ext email qid flags msg)
        (ratesPatch ext))
      [.security, .extract, .industry, .rates, .risk] := rfl

/-- Batch 4, HIGH risk: `calculate` routes to `manual_review`. -/
theorem runStep_calc_high (ext : ExternalInputs) (f : Nat)
    (email qid : String) (flags : List String) (d : ExtractedData)
    (sc : Nat) (cl : List NodeId) :
    runLoop ext (f + 1) (stateAfterParallel ext email qid flags d
        ("HIGH", sc)) [.calculate]
      [.security, .extract, .industry, .rates, .risk] cl =
    runLoop ext f (stateAfterCalc ext email qid flags d ("HIGH", sc))
      [.manual_review]
      [.security, .extract, .industry, .rates, .risk, .calculate] cl := rfl

/-- Batch 4, MEDIUM risk: `calculate` routes straight to `quote`. -/
theorem runStep_calc_medium (ext : ExternalInputs) (f : Nat)
    (email qid : String) (flags : List String) (d : ExtractedData)
    (sc : Nat) (cl : List NodeId) :
    runLoop ext (f + 1) (stateAfterParallel ext email qid flags d
        ("MEDIUM", sc)) [.calculate]
      [.security, .extract, .industry, .rates, .risk] cl =
    runLoop ext f (stateAfterCalc ext email qid flags d ("MEDIUM", sc))
      [.quote]
      [.security, .extract, .industry, .rates, .risk, .calculate] cl := rfl

/-- Batch 4, LOW risk: `calculate` routes straight to `quote`. -/
theorem runStep_calc_low (ext : ExternalInputs) (f : Nat)
    (email qid : String) (flags : List String) (d : ExtractedData)
    (sc : Nat) (cl : List NodeId) :
    runLoop ext (f + 1) (stateAfterParallel ext email qid flags d
        ("LOW", sc)) [.calculate]
      [.security, .extract, .industry, .rates, .risk] cl =
    runLoop ext f (stateAfterCalc ext email qid flags d ("LOW", sc))
      [.quote]
      [.security, .extract, .industry, .rates, .risk, .calculate] cl := rfl

/-- The `quote` batch of an uninterrupted run; `quote`'s only outgoing
edge targets the terminal, so the frontier empties. -/
theorem runStep_quote (ext : ExternalInputs) (f : Nat)
    (email qid : String) (flags : List String) (d : ExtractedData)
    (ls : String × Nat) (ex : List NodeId) (cl : List NodeId) :
    runLoop ext (f + 1) (stateAfterCalc ext email qid flags d ls)
      [.quote] ex cl =
    runLoop ext f (stateAfterQuote ext email qid flags d ls) []
      (ex ++ [.quote]) cl := rfl

/-- A frontier holding the uncleared `interrupt_before` node pauses with a
checkpoint instead of executing it. -/
theorem runStep_pause (ext : ExternalInputs) (f : Nat) (s : AgentState)
    (ex : List NodeId) :
    runLoop ext (f + 1) s [.manual_review] ex [] =
    .Paused s [.manual_review] ex := rfl

/-- An empty frontier completes the run with the current state. -/
theorem runStep_done (ext : ExternalInputs) (f : Nat) (s : AgentState)
    (ex : List NodeId) (cl : List NodeId) :
    runLoop ext (f + 1) s [] ex cl = .Completed s ex := rfl

/-- Resume, batch 1: the block on `manual_review` is cleared, the node
runs (its `stop_reason` key is no declared channel, so the state is
unchanged), and its edge unlocks `quote`. -/
theorem runStep_resume_mr (ext : ExternalInputs) (f : Nat)
    (email qid : String) (flags : List String) (d : ExtractedData)
    (ls : String × Nat) :
    runLoop ext (f + 1)
      (applyPatch (stateAfterCalc ext email qid flags d ls) approvalPatch)
      [.manual_review]
      [.security, .extract, .industry, .rates, .risk, .calculate]
      [.manual_review] =
    runLoop ext f
      (applyPatch (applyPatch (stateAfterCalc ext email qid flags d ls)
        approvalPatch) {})
      [.quote]
      [.security, .extract, .industry, .rates, .risk, .calculate,
       .manual_review] [.manual_review] := rfl

/-- Resume, batch 2: `quote` runs on the approved state. -/
theorem runStep_resume_quote (ext : ExternalInputs) (f : Nat)
    (email qid : String) (flags : List String) (d : ExtractedData)
    (ls : String × Nat) (ex : List NodeId) (cl : List NodeId) :
    runLoop ext (f + 1)
      (applyPatch (applyPatch (stateAfterCalc ext email qid flags d ls)
        approvalPatch) {})
      [.quote] ex cl =
    runLoop ext f (resumedFinalState ext email qid flags d ls) []
      (ex ++ [.quote]) cl := rfl

/-- `node_risk` only ever produces one of six level/score pairs. -/
theorem risk_level_cases (e i : String) (r : ℚ) :
    risk_level_score e i r = ("HIGH", 88) ∨
    risk_level_score e i r = ("HIGH", 80) ∨
    risk_level_score e i r = ("MEDIUM", 45) ∨
    risk_level_score e i r = ("HIGH", 85) ∨
    risk_level_score e i r = ("MEDIUM", 50) ∨
    risk_level_score e i r = ("LOW", 25) := by
  unfold risk_level_score
  split_ifs <;> simp

/-! ## Claim C2 -/

/-- C2, as stated, is false: the `manual_review` pause node is statically
reachable from Start, yet a low-risk input runs to `Completed` without
ever pausing. -/
theorem c2_counterexample :
    isCompleted (runPipeline (extOk dRetail)
      "Renewal quote request for Fashion Forward Boutique" "q1") = true :=
  rfl

/-- C2 (amended): running the graph without prior approval pauses at
`manual_review` — never executing it — exactly when the run routes there,
i.e. when the computed risk level is HIGH; a run that never routes to
`manual_review` may complete instead. -/
theorem c2_theorem (ext : ExternalInputs) (email qid : String)
    (d : ExtractedData) (hext : ext.extractResult = .ok d)
    (hrisk : (risk_level_score (strLower email) d.industry d.revenue).1 =
      "HIGH") :
    runPipeline ext email qid =
      .Paused (stateAfterCalc ext email qid (securityFlagsOf email) d
        (risk_level_score (strLower email) d.industry d.revenue))
        [.manual_review]
        [.security, .extract, .industry, .rates, .risk, .calculate] ∧
    NodeId.manual_review ∉
      ([.security, .extract, .industry, .rates, .risk, .calculate] :
        List NodeId) := by
  refine ⟨?_, by decide⟩
  rcases hp : risk_level_score (strLower email) d.industry d.revenue
    with ⟨lvl, sc⟩
  rw [hp] at hrisk
  have hlvl : lvl = "HIGH" := hrisk
  subst hlvl
  have e1 := runStep_security ext 9 email qid []
  have e2 := runStep_extract ext 8 email qid d (securityFlagsOf email) []
    hext
  have e3 := runStep_parallel ext 7 email qid (securityFlagsOf email) d []
  rw [hp] at e3
  have e4 := runStep_calc_high ext 6 email qid (securityFlagsOf email) d
    sc []
  exact e1.trans (e2.trans (e3.trans (e4.trans
    (runStep_pause ext 5 _ _))))

/-- C2 witness: the high-risk construction scenario pauses before
`manual_review`. -/
theorem c2_witness :
    runPipeline (extOk dConstruction)
        "Quote request - ABC Construction Corp" "q1" =
      .Paused (stateAfterCalc (extOk dConstruction)
        "Quote request - ABC Construction Corp" "q1"
        (securityFlagsOf "Quote request - ABC Construction Corp")
        dConstruction
        (risk_level_score
          (strLower "Quote request - ABC Construction Corp")
          dConstruction.industry dConstruction.revenue))
        [.manual_review]
        [.security, .extract, .industry, .rates, .risk, .calculate] ∧
    NodeId.manual_review ∉
      ([.security, .extract, .industry, .rates, .risk, .calculate] :
        List NodeId) :=
  c2_theorem (extOk dConstruction) "Quote request - ABC Construction Corp"
    "q1" dConstruction rfl rfl

/-! ## Claim C3 -/

set_option maxHeartbeats 2000000 in
/-- C3: a high-risk run pauses before `manual_review`; resuming it with
the approval patch (`update_state {"is_approved": true}` then invoking the
same thread) completes the run, and the final state contains every patch
written before the pause (`extracted_data`, `industry_classification`,
`rates`, `risk_assessment`, `calculation`) together with the approval and
the post-pause patches (`quote_letter` and the quote node's telemetry
entries). -/
theorem c3_theorem (ext : ExternalInputs) (email qid : String)
    (d : ExtractedData) (hext : ext.extractResult = .ok d)
    (hrisk : (risk_level_score (strLower email) d.industry d.revenue).1 =
      "HIGH") :
    runPipeline ext email qid =
      .Paused (stateAfterCalc ext email qid (securityFlagsOf email) d
        (risk_level_score (strLower email) d.industry d.revenue))
        [.manual_review]
        [.security, .extract, .industry, .rates, .risk, .calculate] ∧
    resumeRun ext
      (stateAfterCalc ext email qid (securityFlagsOf email) d
        (risk_level_score (strLower email) d.industry d.revenue))
      [.manual_review]
      [.security, .extract, .industry, .rates, .risk, .calculate] =
      .Completed (resumedFinalState ext email qid (securityFlagsOf email) d
        (risk_level_score (strLower email) d.industry d.revenue))
        [.security, .extract, .industry, .rates, .risk, .calculate,
         .manual_review, .quote] ∧
    (resumedFinalState ext email qid (securityFlagsOf email) d
      (risk_level_score (strLower email) d.industry
        d.revenue)).extracted_data = some d ∧
    (resumedFinalState ext email qid (securityFlagsOf email) d
      (risk_level_score (strLower email) d.industry
        d.revenue)).industry_classification.isSome = true ∧
    (resumedFinalState ext email qid (securityFlagsOf email) d
      (risk_level_score (strLower email) d.industry
        d.revenue)).rates.isSome = true ∧
    (resumedFinalState ext email qid (securityFlagsOf email) d
      (risk_level_score (strLower email) d.industry
        d.revenue)).risk_assessment.isSome = true ∧
    (resumedFinalState ext email qid (securityFlagsOf email) d
      (risk_level_score (strLower email) d.industry
        d.revenue)).calculation.isSome = true ∧
    (resumedFinalState ext email qid (securityFlagsOf email) d
      (risk_level_score (strLower email) d.industry
        d.revenue)).is_approved = some true ∧
    (resumedFinalState ext email qid (securityFlagsOf email) d
      (risk_level_score (strLower email) d.industry
        d.revenue)).quote_letter.isSome = true ∧
    (List.lookup "quote_gen" (resumedFinalState ext email qid
      (securityFlagsOf email) d (risk_level_score (strLower email)
        d.industry d.revenue)).execution_time).isSome = true ∧
    (List.lookup "quote_gen" (resumedFinalState ext email qid
      (securityFlagsOf email) d (risk_level_score (strLower email)
        d.industry d.revenue)).cost_tracking).isSome = true := by
  rcases hp : risk_level_score (strLower email) d.industry d.revenue
    with ⟨lvl, sc⟩
  rw [hp] at hrisk
  have hlvl : lvl = "HIGH" := hrisk
  subst hlvl
  refine ⟨?_, ?_, rfl, rfl, rfl, rfl, rfl, rfl, rfl, ?_, ?_⟩
  · have e1 := runStep_security ext 9 email qid []
    have e2 := runStep_extract ext 8 email qid d (securityFlagsOf email) []
      hext
    have e3 := runStep_parallel ext 7 email qid (securityFlagsOf email) d []
    rw [hp] at e3
    have e4 := runStep_calc_high ext 6 email qid (securityFlagsOf email) d
      sc []
    exact e1.trans (e2.trans (e3.trans (e4.trans
      (runStep_pause ext 5 _ _))))
  · have r1 := runStep_resume_mr ext 9 email qid (securityFlagsOf email) d
      ("HIGH", sc)
    have r2 := runStep_resume_quote ext 8 email qid (securityFlagsOf email)
      d ("HIGH", sc)
      [.security, .extract, .industry, .rates, .risk, .calculate,
       .manual_review] [.manual_review]
    exact r1.trans (r2.trans (runStep_done ext 7 _ _ _))
  · simp only [resumedFinalState, stateAfterCalc, stateAfterParallel,
      stateAfterExtract, stateAfterSecurity, initialState, ratesPatch,
      quotePatch, approvalPatch, applyPatch, applyRed]
    rw [lookup_merge_dicts]
    rfl
  · simp only [resumedFinalState, stateAfterCalc, stateAfterParallel,
      stateAfterExtract, stateAfterSecurity, initialState, ratesPatch,
      quotePatch, approvalPatch, applyPatch, applyRed]
    rw [lookup_merge_dicts]
    rfl

set_option maxHeartbeats 2000000 in
/-- C3 witness: resuming the paused construction scenario completes and
produces the quote letter. -/
theorem c3_witness :
    resumeRun (extOk dConstruction)
      (stateAfterCalc (extOk dConstruction)
        "Quote request - ABC Construction Corp" "q1"
        (securityFlagsOf "Quote request - ABC Construction Corp")
        dConstruction
        (risk_level_score
          (strLower "Quote request - ABC Construction Corp")
          dConstruction.industry dConstruction.revenue))
      [.manual_review]
      [.security, .extract, .industry, .rates, .risk, .calculate] =
      .Completed (resumedFinalState (extOk dConstruction)
        "Quote request - ABC Construction Corp" "q1"
        (securityFlagsOf "Quote request - ABC Construction Corp")
        dConstruction
        (risk_level_score
          (strLower "Quote request - ABC Construction Corp")
          dConstruction.industry dConstruction.revenue))
        [.security, .extract, .industry, .rates, .risk, .calculate,
         .manual_review, .quote] ∧
    (resumedFinalState (extOk dConstruction)
      "Quote request - ABC Construction Corp" "q1"
      (securityFlagsOf "Quote request - ABC Construction Corp")
      dConstruction
      (risk_level_score
        (strLower "Quote request - ABC Construction Corp")
        dConstruction.industry dConstruction.revenue)).quote_letter.isSome
      = true :=
  ⟨(c3_theorem (extOk dConstruction)
      "Quote request - ABC Construction Corp" "q1" dConstruction rfl
      rfl).2.1,
   (c3_theorem (extOk dConstruction)
      "Quote request - ABC Construction Corp" "q1" dConstruction rfl
      rfl).2.2.2.2.2.2.2.2.1⟩

/-! ## Claim C4 -/

/-- C4's example is false on the code: when the extraction chain raises,
`node_extract` catches the exception and returns a successful
`{"error": ...}` patch — the node itself does not fail; the run then fails
in the next batch at `industry`, not at `extract`. -/
theorem c4_counterexample :
    node_extract (extFail "boom") (initialState "email" "q") =
      .ok { error := some "boom" } ∧
    failedNode (runPipeline (extFail "boom") "email" "q") =
      some .industry := ⟨rfl, rfl⟩

/-- C4 (amended): for every run whose extraction raises, the failure
surfaces at `node_industry` in the parallel batch; the sibling `rates`
patch from that same batch is present in the reported state, no node
downstream of the failed node (`calculate`, `quote`) is invoked, and the
result is `Failed` naming the failing node with the last merged state
(which also carries the caught extraction error). -/
theorem c4_theorem (ext : ExternalInputs) (email qid msg : String)
    (hext : ext.extractResult = .error msg) :
    runPipeline ext email qid =
      .Failed .industry "KeyError: extracted_data"
        (stateFailedRun ext email qid msg)
        [.security, .extract, .industry, .rates, .risk] ∧
    node_extract ext
      (stateAfterSecurity ext email qid (securityFlagsOf email)) =
      .ok { error := some msg } ∧
    (stateFailedRun ext email qid msg).rates =
      some [{ type := "GL", rate := 1 / 20 }] ∧
    (List.lookup "rates"
      (stateFailedRun ext email qid msg).execution_time).isSome = true ∧
    (stateFailedRun ext email qid msg).error = some msg ∧
    NodeId.calculate ∉
      ([.security, .extract, .industry, .rates, .risk] : List NodeId) ∧
    NodeId.quote ∉
      ([.security, .extract, .industry, .rates, .risk] : List NodeId) := by
  refine ⟨?_, ?_, rfl, ?_, rfl, by decide, by decide⟩
  · exact (runStep_security ext 9 email qid []).trans
      ((runStep_extract_fail ext 8 email qid msg (securityFlagsOf email) []
        hext).trans
       (runStep_parallel_fail ext 7 email qid msg (securityFlagsOf email)
         []))
  · unfold node_extract
    rw [hext]
  · simp only [stateFailedRun, stateAfterExtractFail, stateAfterSecurity,
      initialState, ratesPatch, applyPatch, applyRed]
    rw [lookup_merge_dicts]
    rfl

/-- C4 witness: a concrete failing extraction aborts at `industry` with
the `rates` sibling patch kept. -/
theorem c4_witness :
    runPipeline (extFail "boom") "email" "q" =
      .Failed .industry "KeyError: extracted_data"
        (stateFailedRun (extFail "boom") "email" "q" "boom")
        [.security, .extract, .industry, .rates, .risk] ∧
    node_extract (extFail "boom")
      (stateAfterSecurity (extFail "boom") "email" "q"
        (securityFlagsOf "email")) = .ok { error := some "boom" } ∧
    (stateFailedRun (extFail "boom") "email" "q" "boom").rates =
      some [{ type := "GL", rate := 1 / 20 }] ∧
    (List.lookup "rates" (stateFailedRun (extFail "boom") "email" "q"
      "boom").execution_time).isSome = true ∧
    (stateFailedRun (extFail "boom") "email" "q" "boom").error =
      some "boom" ∧
    NodeId.calculate ∉
      ([.security, .extract, .industry, .rates, .risk] : List NodeId) ∧
    NodeId.quote ∉
      ([.security, .extract, .industry, .rates, .risk] : List NodeId) :=
  c4_theorem (extFail "boom") "email" "q" "boom" rfl

/-! ## Claim C7 -/

set_option maxHeartbeats 1000000 in
/-- C7: when the security scan flags the input (so the conditional edge
after `risk` selects END), `calculate` still becomes ready through the
unconditional `industry` and `rates` edges and executes — a conditional
edge that does not select `calculate` does not block its readiness. -/
theorem c7_theorem (ext : ExternalInputs) (email qid : String)
    (d : ExtractedData) (hext : ext.extractResult = .ok d)
    (hflags : securityFlagsOf email ≠ []) :
    NodeId.calculate ∈ traceOf (runPipeline ext email qid) ∧
    (stateOf (runPipeline ext email qid)).calculation.isSome = true ∧
    route_after_risk (stateAfterParallel ext email qid
      (securityFlagsOf email) d
      (risk_level_score (strLower email) d.industry d.revenue)) = "END" := by
  rcases hfl : securityFlagsOf email with _ | ⟨f0, fr⟩
  · exact absurd hfl hflags
  · have e1 := runStep_security ext 9 email qid []
    rw [hfl] at e1
    have e2 := runStep_extract ext 8 email qid d (f0 :: fr) [] hext
    have e3 := runStep_parallel ext 7 email qid (f0 :: fr) d []
    have run0 := e1.trans (e2.trans e3)
    rcases risk_level_cases (strLower email) d.industry d.revenue with
      hp | hp | hp | hp | hp | hp
    · rw [hp] at run0 ⊢
      have run := run0.trans ((runStep_calc_high ext 6 email qid (f0 :: fr)
        d 88 []).trans (runStep_pause ext 5 _ _))
      have run2 : runPipeline ext email qid = _ := run
      rw [run2]
      exact ⟨by simp [traceOf], rfl, rfl⟩
    · rw [hp] at run0 ⊢
      have run := run0.trans ((runStep_calc_high ext 6 email qid (f0 :: fr)
        d 80 []).trans (runStep_pause ext 5 _ _))
      have run2 : runPipeline ext email qid = _ := run
      rw [run2]
      exact ⟨by simp [traceOf], rfl, rfl⟩
    · rw [hp] at run0 ⊢
      have run := run0.trans ((runStep_calc_medium ext 6 email qid
        (f0 :: fr) d 45 []).trans ((runStep_quote ext 5 email qid (f0 :: fr)
          d ("MEDIUM", 45)
          [.security, .extract, .industry, .rates, .risk, .calculate]
          []).trans (runStep_done ext 4 _ _ _)))
      have run2 : runPipeline ext email qid = _ := run
      rw [run2]
      exact ⟨by simp [traceOf], rfl, rfl⟩
    · rw [hp] at run0 ⊢
      have run := run0.trans ((runStep_calc_high ext 6 email qid (f0 :: fr)
        d 85 []).trans (runStep_pause ext 5 _ _))
      have run2 : runPipeline ext email qid = _ := run
      rw [run2]
      exact ⟨by simp [traceOf], rfl, rfl⟩
    · rw [hp] at run0 ⊢
      have run := run0.trans ((runStep_calc_medium ext 6 email qid
        (f0 :: fr) d 50 []).trans ((runStep_quote ext 5 email qid (f0 :: fr)
          d ("MEDIUM", 50)
          [.security, .extract, .industry, .rates, .risk, .calculate]
          []).trans (runStep_done ext 4 _ _ _)))
      have run2 : runPipeline ext email qid = _ := run
      rw [run2]
      exact ⟨by simp [traceOf], rfl, rfl⟩
    · rw [hp] at run0 ⊢
      have run := run0.trans ((runStep_calc_low ext 6 email qid (f0 :: fr)
        d 25 []).trans ((runStep_quote ext 5 email qid (f0 :: fr)
          d ("LOW", 25)
          [.security, .extract, .industry, .rates, .risk, .calculate]
          []).trans (runStep_done ext 4 _ _ _)))
      have run2 : runPipeline ext email qid = _ := run
      rw [run2]
      exact ⟨by simp [traceOf], rfl, rfl⟩

set_option maxHeartbeats 1000000 in
/-- C7 witness: an email flagged for PII still reaches `calculate`. -/
theorem c7_witness :
    NodeId.calculate ∈ traceOf (runPipeline (extOk dRetail)
      "Contains SSN data for Fashion Forward Boutique" "q1") ∧
    (stateOf (runPipeline (extOk dRetail)
      "Contains SSN data for Fashion Forward Boutique"
      "q1")).calculation.isSome = true ∧
    route_after_risk (stateAfterParallel (extOk dRetail)
      "Contains SSN data for Fashion Forward Boutique" "q1"
      (securityFlagsOf "Contains SSN data for Fashion Forward Boutique")
      dRetail
      (risk_level_score
        (strLower "Contains SSN data for Fashion Forward Boutique")
        dRetail.industry dRetail.revenue)) = "END" :=
  c7_theorem (extOk dRetail)
    "Contains SSN data for Fashion Forward Boutique" "q1" dRetail rfl
    (by decide)

/-! ## Claim C6: topological soundness of the graph compiler -/

/-- `idx` ignores a right extension for present elements. -/
theorem idx_append_left (l l2 : List String) (x : String) (h : x ∈ l) :
    idx (l ++ l2) x = idx l x := by
  induction l with
  | nil => cases h
  | cons a as ih =>
      simp only [List.cons_append, idx, List.append_eq]
      by_cases hax : a = x
      · simp [hax]
      · simp only [hax, if_false]
        have hx : x ∈ as := by
          rcases List.mem_cons.mp h with h1 | h1
          · exact absurd h1.symm hax
          · exact h1
        rw [ih hx]

/-- A freshly appended element sits at position `l.length`. -/
theorem idx_append_self (l : List String) (x : String) (h : x ∉ l) :
    idx (l ++ [x]) x = l.length := by
  induction l with
  | nil => simp [idx]
  | cons a as ih =>
      have hax : a ≠ x := fun e => h (e ▸ List.mem_cons_self a as)
      simp only [List.cons_append, idx, List.append_eq, hax, if_false,
        List.length_cons]
      rw [ih (fun hx => h (List.mem_cons_of_mem a hx))]

/-- The position of a present element is below the length. -/
theorem idx_lt_length (l : List String) (x : String) (h : x ∈ l) :
    idx l x < l.length := by
  induction l with
  | nil => cases h
  | cons a as ih =>
      simp only [idx, List.length_cons]
      by_cases hax : a = x
      · simp [hax]
      · simp only [hax, if_false]
        have hx : x ∈ as := by
          rcases List.mem_cons.mp h with h1 | h1
          · exact absurd h1.symm hax
          · exact h1
        have := ih hx
        omega

/-- Soundness of Kahn's algorithm: from a well-formed intermediate
configuration, a successful sort lists every node once and places every
edge source strictly before its target. -/
theorem kahn_sound (edges : List (String × String))
    (nodesAll : List String) (hsrc : ∀ e ∈ edges, e.1 ∈ nodesAll) :
    ∀ (fuel : Nat) (remaining acc order : List String),
      acc.Nodup → remaining.Nodup →
      (∀ x ∈ acc, x ∉ remaining) →
      (∀ x ∈ nodesAll, x ∈ acc ∨ x ∈ remaining) →
      (∀ e ∈ edges, e.2 ∈ acc → e.1 ∈ acc ∧ idx acc e.1 < idx acc e.2) →
      kahn edges fuel remaining acc = some order →
      order.Nodup ∧ (∀ x ∈ nodesAll, x ∈ order) ∧
      (∀ e ∈ edges, e.2 ∈ order → e.1 ∈ order ∧
        idx order e.1 < idx order e.2) := by
  intro fuel
  induction fuel with
  | zero =>
      intro remaining acc order h1 h2 h3 h4 h5 hk
      cases hre : remaining with
      | nil =>
          subst hre
          simp only [kahn, List.isEmpty_nil, if_true] at hk
          obtain rfl : acc = order := Option.some.inj hk
          refine ⟨h1, ?_, h5⟩
          intro x hx
          rcases h4 x hx with h | h
          · exact h
          · cases h
      | cons r rs =>
          subst hre
          simp [kahn] at hk
  | succ f ih =>
      intro remaining acc order h1 h2 h3 h4 h5 hk
      cases hre : remaining with
      | nil =>
          subst hre
          simp only [kahn, List.isEmpty_nil, if_true] at hk
          obtain rfl : acc = order := Option.some.inj hk
          refine ⟨h1, ?_, h5⟩
          intro x hx
          rcases h4 x hx with h | h
          · exact h
          · cases h
      | cons r rs =>
          subst hre
          simp only [kahn, List.isEmpty_cons, Bool.false_eq_true,
            if_false] at hk
          cases hpick : pickReady edges (r :: rs) with
          | none => rw [hpick] at hk; cases hk
          | some n =>
              rw [hpick] at hk
              have hn_mem : n ∈ r :: rs :=
                List.mem_of_find?_eq_some hpick
              have hn_pred := List.find?_some hpick
              have hno_in : ∀ m ∈ r :: rs, (m, n) ∉ edges := by
                intro m hm
                have := List.all_eq_true.mp hn_pred m hm
                simpa using this
              have hnacc : n ∉ acc := fun hna => h3 n hna hn_mem
              have A1 : (acc ++ [n]).Nodup := by
                refine List.Nodup.append h1 (List.nodup_singleton n) ?_
                intro a ha hb
                have : a = n := by simpa using hb
                exact hnacc (this ▸ ha)
              have A2 : ((r :: rs).erase n).Nodup := h2.erase n
              have A3 : ∀ x ∈ acc ++ [n], x ∉ (r :: rs).erase n := by
                intro x hx hxe
                rcases List.mem_append.mp hx with hx1 | hx1
                · exact h3 x hx1 (List.mem_of_mem_erase hxe)
                · have hxn : x = n := by simpa using hx1
                  subst hxn
                  exact ((List.Nodup.mem_erase_iff h2).mp hxe).1 rfl
              have A4 : ∀ x ∈ nodesAll, x ∈ acc ++ [n] ∨
                  x ∈ (r :: rs).erase n := by
                intro x hx
                rcases h4 x hx with h | h
                · exact Or.inl (List.mem_append_left _ h)
                · by_cases hxn : x = n
                  · exact Or.inl (List.mem_append_right _ (by simp [hxn]))
                  · exact Or.inr ((List.Nodup.mem_erase_iff h2).mpr
                      ⟨hxn, h⟩)
              have A5 : ∀ e ∈ edges, e.2 ∈ acc ++ [n] →
                  e.1 ∈ acc ++ [n] ∧
                  idx (acc ++ [n]) e.1 < idx (acc ++ [n]) e.2 := by
                intro e he hmem
                rcases List.mem_append.mp hmem with h2m | h2m
                · obtain ⟨hin, hlt⟩ := h5 e he h2m
                  refine ⟨List.mem_append_left _ hin, ?_⟩
                  rw [idx_append_left _ _ _ hin, idx_append_left _ _ _ h2m]
                  exact hlt
                · have h2n : e.2 = n := by simpa using h2m
                  have he1 : e.1 ∈ acc := by
                    rcases h4 e.1 (hsrc e he) with h | h
                    · exact h
                    · exfalso
                      apply hno_in e.1 h
                      rw [← h2n]
                      exact he
                  refine ⟨List.mem_append_left _ he1, ?_⟩
                  rw [h2n, idx_append_left _ _ _ he1, idx_append_self _ _
                    hnacc]
                  exact idx_lt_length _ _ he1
              exact ih ((r :: rs).erase n) (acc ++ [n]) order A1 A2 A3 A4
                A5 hk

/-- A chain of internal edges strictly increases topological position. -/
theorem chain_idx_lt (g : GraphDefn) (order : List String)
    (htopo : ∀ e ∈ internalEdges g, idx order e.1 < idx order e.2) :
    ∀ (l : List String) (u v : String),
      List.Chain (fun a b => (a, b) ∈ internalEdges g) u (l ++ [v]) →
      idx order u < idx order v := by
  intro l
  induction l with
  | nil =>
      intro u v h
      rw [List.nil_append] at h
      obtain ⟨hr, _⟩ := List.chain_cons.mp h
      exact htopo (u, v) hr
  | cons a t ih =>
      intro u v h
      rw [List.cons_append] at h
      obtain ⟨hr, hrest⟩ := List.chain_cons.mp h
      exact lt_trans (htopo (u, a) hr) (ih a v hrest)

/-- C6: every successfully compiled graph admits the returned topological
ordering of its nodes, and compiling a graph containing a cycle always
fails with a `CompileError`. -/
theorem c6_theorem :
    (∀ (g : GraphDefn) (order : List String),
      compile g = .ok order → IsTopoOrder g order) ∧
    (∀ g : GraphDefn, HasCycle g → ∃ e : CompileError,
      compile g = .error e) := by
  have main : ∀ (g : GraphDefn) (order : List String),
      compile g = .ok order → IsTopoOrder g order := by
    intro g order hok
    unfold compile at hok
    split_ifs at hok with hd hs he hr
    have hnodup : g.nodes.Nodup := by
      simpa using hd
    have hends : ∀ (x y : String), (x, y) ∈ g.edges →
        x ∈ g.nodes ∧ (y ∉ g.nodes → y = "END") := by
      simpa using he
    cases hkn : kahn (internalEdges g) g.nodes.length g.nodes [] with
    | none => rw [hkn] at hok; cases hok
    | some o =>
        rw [hkn] at hok
        obtain rfl : o = order := by injection hok
        have hsrc : ∀ e ∈ internalEdges g, e.1 ∈ g.nodes := by
          intro e he
          exact (hends e.1 e.2 (List.mem_filter.mp he).1).1
        have htgt : ∀ e ∈ internalEdges g, e.2 ∈ g.nodes := by
          intro e he
          obtain ⟨heg, hne⟩ := List.mem_filter.mp he
          have hne2 : e.2 ≠ "END" := by simpa using hne
          by_cases hno : e.2 ∈ g.nodes
          · exact hno
          · exact absurd ((hends e.1 e.2 heg).2 hno) hne2
        obtain ⟨hnd, hcomp, htopo⟩ :=
          kahn_sound (internalEdges g) g.nodes hsrc g.nodes.length
            g.nodes [] o List.nodup_nil hnodup
            (by intro x hx; cases hx)
            (fun x hx => Or.inr hx)
            (by intro e he hmem; cases hmem) hkn
        exact ⟨hnd, hcomp, fun e he => (htopo e he (hcomp e.2
          (htgt e he))).2⟩
  refine ⟨main, ?_⟩
  intro g hcyc
  cases hc : compile g with
  | error e => exact ⟨e, rfl⟩
  | ok order =>
      exfalso
      obtain ⟨u, l, hchain⟩ := hcyc
      exact absurd (chain_idx_lt g order (main g order hc).2.2 l u u hchain)
        (lt_irrefl _)

/-- C6 witness: the underwriting graph compiles to a topological order,
and the two-node cyclic graph is rejected with a `CompileError`. -/
theorem c6_witness :
    IsTopoOrder gDemo ["security", "extract", "industry", "rates", "risk",
      "calculate", "manual_review", "quote"] ∧
    (∃ e : CompileError, compile gCycle = .error e) :=
  ⟨c6_theorem.1 gDemo _ (by rfl),
   c6_theorem.2 gCycle ⟨"a", ["b"],
     List.Chain.cons (by decide) (List.Chain.cons (by decide)
       List.Chain.nil)⟩⟩

end Underwriting
